import Mathlib

/-!
Shallow embedding of the JSONQuery core (src/jsonquery.py): the Value model,
the minimal YAML parser, the path-query parser and evaluator, the filter
parser and evaluator, and the tree scanners (search, numeric collection).

Python values are modelled by the `Value` inductive; Python `None` is
`Value.null` (the code uses the same `None` both as the JSON null and as its
"not found" return). Python `int` is `Value.int`, Python `float` is
`Value.float` carrying an exact rational (every float literal appearing in
the claims is exactly representable). Python `dict` is an insertion-ordered
association list with unique keys. Regular-expression matching (`re.search`)
is external library code; it is abstracted as an explicit matcher argument
`rm : String → String → Bool` (pattern, subject) threaded through the
functions that use it.
-/

namespace JSONQuery

/-- Tagged union modelling the Python values the tool manipulates:
`None`, `bool`, `int`, `float`, `str`, `list`, `dict`. -/
inductive Value : Type where
  | null : Value
  | bool : Bool → Value
  | int : Int → Value
  | float : Rat → Value
  | str : String → Value
  | list : List Value → Value
  | dict : List (String × Value) → Value
  deriving Repr

/-- Test for Python `None`; `x is not None` in the source is `!isNull x`. -/
def isNull : Value → Bool
  | .null => true
  | _ => false

/-- Lookup of a key in a Python dict modelled as an association list
(first binding wins; parser-produced dicts have unique keys). -/
def lookupKey : List (String × Value) → String → Option Value
  | [], _ => none
  | (k', v) :: rest, k => if k' = k then some v else lookupKey rest k

/-- Python dict assignment `d[k] = v`: update in place if the key exists
(keeping its position), else append at the end. -/
def upsert : List (String × Value) → String → Value → List (String × Value)
  | [], k, v => [(k, v)]
  | (k', v') :: rest, k, v =>
    if k' = k then (k, v) :: rest else (k', v') :: upsert rest k v

/-- Character class stripped by Python `str.strip()` with no argument. -/
def pyWhitespace (c : Char) : Bool :=
  c = ' ' || c = '\t' || c = '\n' || c = '\r' || c = '\x0b' || c = '\x0c'

/-- Python `str.strip()` on a character list. -/
def trimChars (cs : List Char) : List Char :=
  ((cs.dropWhile pyWhitespace).reverse.dropWhile pyWhitespace).reverse

/-- Python `str.strip()` returning a string. -/
def strTrim (s : String) : String := String.mk (trimChars s.data)

/-- Python `str.lstrip()`. -/
def strTrimLeft (s : String) : String := String.mk (s.data.dropWhile pyWhitespace)

/-- ASCII lower-casing of one character, as `str.lower()` does on the
ASCII tokens this tool compares. -/
def lowerChar (c : Char) : Char :=
  if 'A' ≤ c && c ≤ 'Z' then Char.ofNat (c.toNat + 32) else c

/-- Python `str.lower()` restricted to ASCII. -/
def lowerStr (s : String) : String := String.mk (s.data.map lowerChar)

/-- Test whether the first character of a string is `c` (Python
`s.startswith(c)` for a one-character needle). -/
def headIs (s : String) (c : Char) : Bool :=
  match s.data with
  | [] => false
  | d :: _ => d = c

/-- Test whether the last character of a string is `c` (Python
`s.endswith(c)` for a one-character needle). -/
def lastIs (s : String) (c : Char) : Bool :=
  match s.data.getLast? with
  | some d => d = c
  | none => false

/-- Python `s[1:-1]`: drop the first and last characters. -/
def stripEnds (s : String) : String := String.mk (s.data.drop 1).dropLast

/-- Test whether one character list is a prefix of another. -/
def isPrefixList : List Char → List Char → Bool
  | [], _ => true
  | _ :: _, [] => false
  | a :: as, b :: bs => a = b && isPrefixList as bs

/-- Find the first occurrence of the (nonempty) separator `sep` in a
character list, returning the parts before and after it; `none` when the
separator does not occur. Models Python `sep in s` via `isSome` and
`s.split(sep, 1)` via the returned pair. -/
def findSplit (sep : List Char) : List Char → Option (List Char × List Char)
  | [] => if isPrefixList sep [] then some ([], []) else none
  | c :: rest =>
    if isPrefixList sep (c :: rest) then some ([], (c :: rest).drop sep.length)
    else
      match findSplit sep rest with
      | some (pre, post) => some (c :: pre, post)
      | none => none

/-- Detect two consecutive underscores in a character run. -/
def hasDoubleUnderscore : List Char → Bool
  | '_' :: '_' :: _ => true
  | _ :: rest => hasDoubleUnderscore rest
  | [] => false

/-- Valid digit run for Python numeric literals: nonempty, digits with
single underscores strictly between digits. -/
def validDigitRun (cs : List Char) : Bool :=
  match cs with
  | [] => false
  | c :: _ =>
    c.isDigit && (cs.getLastD '0').isDigit
      && cs.all (fun d => d.isDigit || d = '_')
      && !(hasDoubleUnderscore cs)

/-- Numeric value of a run of decimal digits. -/
def digitsVal (cs : List Char) : Nat :=
  cs.foldl (fun a c => a * 10 + (c.toNat - 48)) 0

/-- Python `int(s)` on a string: optional surrounding whitespace, optional
sign, then a digit run; `none` models `ValueError`. -/
def pyInt? (s : String) : Option Int :=
  match trimChars s.data with
  | '+' :: body =>
    if validDigitRun body then some (Int.ofNat (digitsVal (body.filter (· ≠ '_')))) else none
  | '-' :: body =>
    if validDigitRun body then some (-(Int.ofNat (digitsVal (body.filter (· ≠ '_'))))) else none
  | body =>
    if validDigitRun body then some (Int.ofNat (digitsVal (body.filter (· ≠ '_')))) else none

/-- Mantissa of a Python float literal: `digits`, `digits.`, `.digits` or
`digits.digits`, underscores allowed inside each digit run. Returns the
scaled integer mantissa and the number of fractional digits. -/
def mantissaParts? (cs : List Char) : Option (Nat × Nat) :=
  let ip := cs.takeWhile (· ≠ '.')
  let rest := cs.dropWhile (· ≠ '.')
  match rest with
  | [] => if validDigitRun ip then some (digitsVal (ip.filter (· ≠ '_')), 0) else none
  | _ :: fp =>
    let ipOk := ip.isEmpty || validDigitRun ip
    let fpOk := fp.isEmpty || validDigitRun fp
    if (ip.isEmpty && fp.isEmpty) || !ipOk || !fpOk || fp.contains '.' then none
    else
      let fd := fp.filter (· ≠ '_')
      some (digitsVal (ip.filter (· ≠ '_')) * 10 ^ fd.length + digitsVal fd, fd.length)

/-- Python `float(s)` on a finite numeric literal: optional whitespace and
sign, mantissa, optional exponent; `none` models `ValueError` (the infinity
and NaN spellings contain no `'.'` and are unreachable from the call sites,
which only invoke `float` on strings containing a dot). The result is the
exact rational value of the literal. -/
def pyFloat? (s : String) : Option Rat :=
  let cs0 := trimChars s.data
  let signedBody : Bool × List Char :=
    match cs0 with
    | '+' :: r => (false, r)
    | '-' :: r => (true, r)
    | r => (false, r)
  let cs := signedBody.2
  let mant := cs.takeWhile (fun c => c ≠ 'e' && c ≠ 'E')
  let rest := cs.dropWhile (fun c => c ≠ 'e' && c ≠ 'E')
  let parts : Option (Nat × Nat) :=
    match rest with
    | [] => mantissaParts? mant
    | _ :: ecs =>
      let esigned : Bool × List Char :=
        match ecs with
        | '+' :: r => (false, r)
        | '-' :: r => (true, r)
        | r => (false, r)
      if validDigitRun esigned.2 then
        match mantissaParts? mant with
        | some p =>
          let e := digitsVal (esigned.2.filter (· ≠ '_'))
          some (if esigned.1 then (p.1, p.2 + e) else (p.1 * 10 ^ e, p.2))
        | none => none
      else none
  parts.map (fun p =>
    let n : Int := Int.ofNat p.1
    mkRat (if signedBody.1 then -n else n) (10 ^ p.2))

namespace YAMLParser

/-- Embedding of `YAMLParser._parse_value`: coerce a YAML scalar token.
Case-insensitive boolean and null words first, then a numeric parse gated
on the presence of a dot (`float` if `'.' in value` else `int`), then one
layer of matching quotes is stripped, else the raw string. -/
def parse_value (value0 : String) : Value :=
  let value := strTrim value0
  let lw := lowerStr value
  if lw = "true" || lw = "yes" || lw = "on" then .bool true
  else if lw = "false" || lw = "no" || lw = "off" then .bool false
  else if lw = "null" || lw = "none" || lw = "~" then .null
  else
    let numeric : Option Value :=
      if value.data.contains '.' then (pyFloat? value).map Value.float
      else (pyInt? value).map Value.int
    match numeric with
    | some n => n
    | none =>
      if (headIs value '"' && lastIs value '"')
          || (headIs value '\'' && lastIs value '\'') then
        .str (stripEnds value)
      else .str value

end YAMLParser

/-- Embedding of `parse_filter_value`: coerce the literal of a filter
expression. Quote stripping first, then boolean words (via `lower()`), then
null words, then the dot-gated numeric parse, else the raw string. -/
def parse_filter_value (value0 : String) : Value :=
  let value := strTrim value0
  if (headIs value '"' && lastIs value '"')
      || (headIs value '\'' && lastIs value '\'') then
    .str (stripEnds value)
  else if lowerStr value = "true" then .bool true
  else if lowerStr value = "false" then .bool false
  else if lowerStr value = "null" || lowerStr value = "none" then .null
  else
    let numeric : Option Value :=
      if value.data.contains '.' then (pyFloat? value).map Value.float
      else (pyInt? value).map Value.int
    match numeric with
    | some n => n
    | none => .str value

/-- Path component as produced by `parse_query_path`: the Python code uses a
plain `str` or `int`; the wildcard is just the string `"*"`, here `fld "*"`. -/
inductive Comp : Type where
  | fld : String → Comp
  | idx : Int → Comp
  deriving Repr, DecidableEq

/-- Character-scanning loop of `parse_query_path`: `cur` is the accumulated
identifier; a dot flushes it, a bracket group is read up to the next `]`
(content `*` stays the string component `*`, else an integer parse is
attempted, else the content is a literal field key). The fuel argument only
bounds the scan; `parse_query_path` supplies more fuel than there are
characters, and every step consumes at least one character. -/
def parseQueryGo : Nat → List Char → String → List Comp
  | _, [], cur => if cur = "" then [] else [Comp.fld cur]
  | 0, _ :: _, cur => if cur = "" then [] else [Comp.fld cur]
  | fuel + 1, c :: rest, cur =>
    if c = '.' then
      if cur = "" then parseQueryGo fuel rest ""
      else Comp.fld cur :: parseQueryGo fuel rest ""
    else if c = '[' then
      let flushed : List Comp := if cur = "" then [] else [Comp.fld cur]
      let content := String.mk (rest.takeWhile (· ≠ ']'))
      let after := (rest.dropWhile (· ≠ ']')).drop 1
      let comp : Comp :=
        if content = "*" then Comp.fld "*"
        else
          match pyInt? content with
          | some n => Comp.idx n
          | none => Comp.fld content
      flushed ++ comp :: parseQueryGo fuel after ""
    else parseQueryGo fuel rest (cur.push c)

/-- Embedding of `parse_query_path`. -/
def parse_query_path (path : String) : List Comp :=
  parseQueryGo path.data.length path.data ""

/-- Embedding of `query_data`: walk a value along a component list. The
wildcard component (the string `*`) is tested first; then dict access; then
list access (integer index with Python indexing semantics wrapped in a
try/except IndexError, or field projection across dict elements); anything
else is `None`. -/
def query_data (data : Value) (path : List Comp) : Value :=
  match path with
  | [] => data
  | component :: remaining =>
    if component = Comp.fld "*" then
      match data with
      | .list items =>
        let results := items.foldl
          (fun acc item =>
            let r := query_data item remaining
            if isNull r then acc else acc ++ [r]) []
        match results with
        | [] => .null
        | _ => .list results
      | _ => .null
    else
      match data with
      | .dict entries =>
        match component with
        | .fld k =>
          match lookupKey entries k with
          | some v => query_data v remaining
          | none => .null
        | .idx _ => .null
      | .list items =>
        match component with
        | .idx i =>
          let n : Int := Int.ofNat items.length
          let j : Int := if i < 0 then n + i else i
          if 0 ≤ j ∧ j < n then query_data (items.getD j.toNat Value.null) remaining
          else .null
        | .fld k =>
          let results := items.foldl
            (fun acc item =>
              match item with
              | .dict es =>
                match lookupKey es k with
                | some v =>
                  let r := query_data v remaining
                  if isNull r then acc else acc ++ [r]
                | none => acc
              | _ => acc) []
          match results with
          | [] => .null
          | _ => .list results
      | _ => .null

/-- Numeric view of a value: Python treats `bool` as a numeric type
(`True == 1`), and `int` and `float` compare by numeric value. -/
def numQ? : Value → Option Rat
  | .bool b => some (if b then mkRat 1 1 else mkRat 0 1)
  | .int n => some (mkRat n 1)
  | .float q => some q
  | _ => none

mutual
/-- Python `==` on the value domain: numeric kinds compare by value
(bool counting as 0 or 1), strings and `None` by identity of kind and
content, lists elementwise, dicts by key set and per-key values; any other
cross-kind pair is unequal (never an error). -/
def pyEq : Value → Value → Bool
  | .null, .null => true
  | .str s, .str t => s = t
  | .list a, .list b => pyEqList a b
  | .dict a, .dict b => pyEqDict a b && b.all (fun kv => (lookupKey a kv.1).isSome)
  | a, b =>
    match numQ? a, numQ? b with
    | some x, some y => x = y
    | _, _ => false

/-- Elementwise Python `==` of two lists. -/
def pyEqList : List Value → List Value → Bool
  | [], [] => true
  | a :: as, b :: bs => pyEq a b && pyEqList as bs
  | _, _ => false

/-- One inclusion of Python dict equality: every binding of the first dict
is matched by an equal binding in the second. -/
def pyEqDict : List (String × Value) → List (String × Value) → Bool
  | [], _ => true
  | (k, v) :: rest, b =>
    (match lookupKey b k with
     | some w => pyEq v w
     | none => false) && pyEqDict rest b
end

mutual
/-- Python `<` on the value domain; `none` models a `TypeError`. Numeric
kinds (bool included) compare by value, strings lexicographically by code
point, lists lexicographically; every other combination raises. -/
def pyLt : Value → Value → Option Bool
  | .str s, .str t => some (decide (s < t))
  | .list a, .list b => pyLtList a b
  | a, b =>
    match numQ? a, numQ? b with
    | some x, some y => some (decide (x < y))
    | _, _ => none

/-- Python list `<`: skip equal heads, decide at the first unequal pair. -/
def pyLtList : List Value → List Value → Option Bool
  | [], [] => some false
  | [], _ :: _ => some true
  | _ :: _, [] => some false
  | a :: as, b :: bs => if pyEq a b then pyLtList as bs else pyLt a b
end

mutual
/-- Python `<=` on the value domain; `none` models a `TypeError`. -/
def pyLe : Value → Value → Option Bool
  | .str s, .str t => some (decide (s ≤ t))
  | .list a, .list b => pyLeList a b
  | a, b =>
    match numQ? a, numQ? b with
    | some x, some y => some (decide (x ≤ y))
    | _, _ => none

/-- Python list `<=`: skip equal heads, decide at the first unequal pair. -/
def pyLeList : List Value → List Value → Option Bool
  | [], _ => some true
  | _ :: _, [] => some false
  | a :: as, b :: bs => if pyEq a b then pyLeList as bs else pyLt a b
end

/-- Embedding of `check_condition`. The whole comparison is wrapped in
`try/except (TypeError, AttributeError): return False` in the source; the
`getD false` on the ordering results models exactly that. The regex
operator `~` requires both sides to be strings and defers to the abstract
matcher `rm` (pattern, subject) standing for `re.search`. -/
def check_condition (rm : String → String → Bool)
    (item_value : Value) (operator : String) (filter_value : Value) : Bool :=
  if operator = "==" then pyEq item_value filter_value
  else if operator = "!=" then !(pyEq item_value filter_value)
  else if operator = ">" then (pyLt filter_value item_value).getD false
  else if operator = "<" then (pyLt item_value filter_value).getD false
  else if operator = ">=" then (pyLe filter_value item_value).getD false
  else if operator = "<=" then (pyLe item_value filter_value).getD false
  else if operator = "~" then
    match item_value, filter_value with
    | .str s, .str p => rm p s
    | _, _ => false
  else false

/-- Discriminant of the Python runtime type of a value (two values are of
the same kind exactly when this agrees). -/
def kindIdx : Value → Nat
  | .null => 0
  | .bool _ => 1
  | .int _ => 2
  | .float _ => 3
  | .str _ => 4
  | .list _ => 5
  | .dict _ => 6

/-- Kinds Python treats as numeric for comparison purposes: `bool`, `int`
and `float` (bool is a subclass of int in Python). -/
def isNumericKind : Value → Bool
  | .bool _ => true
  | .int _ => true
  | .float _ => true
  | _ => false

/-- Operator list of `filter_data`, tried in this exact order. -/
def operators : List String := ["==", "!=", ">=", "<=", ">", "<", "~"]

/-- Operator scan of `filter_data`: the first operator in the fixed list
that occurs anywhere in the expression wins; the expression is split at
that operator's first occurrence into key and raw value, both stripped. -/
def parseFilterExpr (filter_expr : String) : Option (String × String × String) :=
  operators.findSome? (fun op =>
    match findSplit op.data filter_expr.data with
    | some (pre, post) =>
      some (strTrim (String.mk pre), op, strTrim (String.mk post))
    | none => none)

/-- Loop condition of `filter_data` over one candidate element: the element
is kept when it is a dict carrying the key and the condition holds on the
keyed value. -/
def filterKeep (rm : String → String → Bool) (key operator : String)
    (parsed_value : Value) (item : Value) : Bool :=
  match item with
  | .dict es =>
    match lookupKey es key with
    | some item_value => check_condition rm item_value operator parsed_value
    | none => false
  | _ => false

/-- Embedding of `filter_data`. An empty expression, or one with no
recognized operator, passes the data through unchanged. A list keeps the
sub-list of dict elements that carry the key and satisfy the condition
(possibly empty); a dict passes or becomes `None`; anything else is `None`. -/
def filter_data (rm : String → String → Bool) (data : Value) (filter_expr : String) : Value :=
  if filter_expr = "" then data
  else
    match parseFilterExpr filter_expr with
    | none => data
    | some (key, operator, rawValue) =>
      let parsed_value := parse_filter_value rawValue
      match data with
      | .list items =>
        .list (items.foldl
          (fun acc item =>
            if filterKeep rm key operator parsed_value item then acc ++ [item] else acc) [])
      | .dict es =>
        match lookupKey es key with
        | some v =>
          if check_condition rm v operator parsed_value then data else .null
        | none => .null
      | _ => .null

mutual
/-- Recursive walker of `search_data`: depth-first pre-order; dict keys
build `parent.key` paths (no leading separator at the root), list elements
build `parent[index]` paths, and a string leaf is emitted when the abstract
matcher `rm` (standing for `re.search` with the chosen flags) succeeds. -/
def search_recursive (rm : String → String → Bool) (pattern : String) :
    Value → String → List (String × String)
  | .dict es, path => searchDict rm pattern es path
  | .list items, path => searchList rm pattern items 0 path
  | .str s, path => if rm pattern s then [(path, s)] else []
  | _, _ => []

/-- Dict part of the search walk, in stored key order. -/
def searchDict (rm : String → String → Bool) (pattern : String) :
    List (String × Value) → String → List (String × String)
  | [], _ => []
  | (key, v) :: rest, path =>
    search_recursive rm pattern v (if path = "" then key else path ++ "." ++ key)
      ++ searchDict rm pattern rest path

/-- List part of the search walk, tracking the element index. -/
def searchList (rm : String → String → Bool) (pattern : String) :
    List Value → Nat → String → List (String × String)
  | [], _, _ => []
  | item :: rest, i, path =>
    search_recursive rm pattern item (path ++ "[" ++ toString i ++ "]")
      ++ searchList rm pattern rest (i + 1) path
end

/-- Embedding of `search_data`: search all string leaves, returning
(materialized path, leaf) pairs. The `case_sensitive` flag of the source
only selects the regex flags and is absorbed into the matcher `rm`. -/
def search_data (rm : String → String → Bool) (data : Value) (pattern : String) :
    List (String × String) :=
  search_recursive rm pattern data ""

mutual
/-- Embedding of the `collect_numbers` closure inside `calculate_stats`:
Python `isinstance(obj, (int, float))` is true for `bool` as well, so
boolean leaves are collected; dict values and list elements are visited
depth-first in stored order; `None` and strings contribute nothing. -/
def collect_numbers : Value → List Value
  | .bool b => [.bool b]
  | .int n => [.int n]
  | .float q => [.float q]
  | .dict es => collectDict es
  | .list items => collectList items
  | _ => []

/-- Dict part of the numeric collection (iterates over the values). -/
def collectDict : List (String × Value) → List Value
  | [] => []
  | (_, v) :: rest => collect_numbers v ++ collectDict rest

/-- List part of the numeric collection. -/
def collectList : List Value → List Value
  | [] => []
  | item :: rest => collect_numbers item ++ collectList rest
end

/-- Python numeric addition as used by `sum`: a `float` operand makes the
result `float`, otherwise the result is an `int` (bools count as 0/1).
Only ever applied to the numeric leaves collected above. -/
def pyAdd (a b : Value) : Value :=
  match a, b with
  | .float x, _ => .float (x + (numQ? b).getD 0)
  | _, .float y => .float ((numQ? a).getD 0 + y)
  | _, _ => .int (intOf a + intOf b)
where
  /-- Integer value of a bool or int leaf. -/
  intOf : Value → Int
    | .bool b => if b then 1 else 0
    | .int n => n
    | _ => 0

/-- Python `min` over a nonempty list: keep the current minimum, replacing
it only when a later element is strictly smaller, so the first minimal
element is returned. -/
def pyMin (numbers : List Value) : Value :=
  match numbers with
  | [] => .null
  | x :: xs =>
    xs.foldl (fun cur y =>
      if (numQ? y).getD 0 < (numQ? cur).getD 0 then y else cur) x

/-- Python `max` over a nonempty list, returning the first maximal
element. -/
def pyMax (numbers : List Value) : Value :=
  match numbers with
  | [] => .null
  | x :: xs =>
    xs.foldl (fun cur y =>
      if (numQ? cur).getD 0 < (numQ? y).getD 0 then y else cur) x

/-- Embedding of `calculate_stats`: collect the numeric leaves; an empty
collection reports the error dict, otherwise count, sum (Python `sum`
starting from the int 0), float average (true division), min and max. -/
def calculate_stats (data : Value) : Value :=
  let numbers := collect_numbers data
  match numbers with
  | [] => .dict [("error", .str "No numeric values found")]
  | _ =>
    let s := numbers.foldl pyAdd (.int 0)
    .dict [("count", .int (Int.ofNat numbers.length)),
           ("sum", s),
           ("avg", .float ((numQ? s).getD 0 / (mkRat (Int.ofNat numbers.length) 1))),
           ("min", pyMin numbers),
           ("max", pyMax numbers)]

namespace YAMLParser

/-- Splitting a character list on every occurrence of one character
(Python `str.split('\n')`: an empty input yields one empty part). -/
def splitOnChar (c : Char) : List Char → List (List Char)
  | [] => [[]]
  | d :: rest =>
    let r := splitOnChar c rest
    if d = c then [] :: r
    else
      match r with
      | h :: t => (d :: h) :: t
      | [] => [[d]]

/-- Final result of one `_parse_lines` block: a seen list item makes the
block a list; otherwise a nonempty mapping, else `None`. -/
def finishBlock (res : List (String × Value)) (cl : List Value)
    (inList : Bool) (consumed : Nat) : Value × Nat :=
  if inList then (.list cl, consumed)
  else
    match res with
    | [] => (.null, consumed)
    | _ => (.dict res, consumed)

/-- Embedding of the `_parse_lines` loop. State: `res` the mapping built so
far, `cl` the list items, `ck` the pending key awaiting an indented block,
`inList` whether a list item was seen, `consumed` the lines consumed. The
fuel argument only bounds the loop (each Python iteration consumes a line
or ends the block; `parse` supplies ample fuel). -/
def parse_lines (fuel : Nat) (lines : List String) (startIndent : Nat)
    (res : List (String × Value)) (cl : List Value) (ck : Option String)
    (inList : Bool) (consumed : Nat) : Value × Nat :=
  match fuel with
  | 0 => finishBlock res cl inList consumed
  | fuel + 1 =>
    match lines with
    | [] => finishBlock res cl inList consumed
    | line :: rest =>
      let stripped := strTrim line
      if stripped = "" || headIs stripped '#' then
        parse_lines fuel rest startIndent res cl ck inList (consumed + 1)
      else
        let indent := line.data.length - (strTrimLeft line).data.length
        if indent < startIndent then finishBlock res cl inList consumed
        else if startIndent < indent then
          match ck with
          | some key =>
            let nested := parse_lines fuel (line :: rest) indent [] [] none false 0
            parse_lines fuel ((line :: rest).drop nested.2) startIndent
              (upsert res key nested.1) cl none inList (consumed + nested.2)
          | none =>
            parse_lines fuel rest startIndent res cl ck inList (consumed + 1)
        else
          if isPrefixList ("- ").data stripped.data then
            let value := strTrim (String.mk (stripped.data.drop 2))
            let item : Value :=
              match findSplit (": ").data value.data with
              | some (k, v) => .dict [(String.mk k, parse_value (String.mk v))]
              | none => parse_value value
            parse_lines fuel rest startIndent res (cl ++ [item]) ck true (consumed + 1)
          else
            match findSplit (": ").data stripped.data with
            | some (k, v) =>
              let key := strTrim (String.mk k)
              let value := strTrim (String.mk v)
              if value ≠ "" then
                parse_lines fuel rest startIndent (upsert res key (parse_value value))
                  cl ck inList (consumed + 1)
              else
                parse_lines fuel rest startIndent res cl (some key) inList (consumed + 1)
            | none =>
              parse_lines fuel rest startIndent res cl ck inList (consumed + 1)

/-- Embedding of `YAMLParser.parse`: strip the text, split into lines and
run the block parser at indentation 0 (with ample fuel for the loop). -/
def parse (text : String) : Value :=
  let lines := (splitOnChar '\n' (trimChars text.data)).map String.mk
  (parse_lines (3 * lines.length + 4) lines 0 [] [] none false 0).1

end YAMLParser

/-! Theorems. Each claim of the specification is settled below; helper
lemmas are shared, claim theorems are one per claim. -/

/-- The append-collecting loop of the evaluator equals a map followed by a
filter of the non-`None` results. -/
theorem foldl_collect_eq (f : Value → Value) (l : List Value) (acc : List Value) :
    l.foldl (fun a it =>
        let r := f it
        if isNull r then a else a ++ [r]) acc
      = acc ++ (l.map f).filter (fun r => !(isNull r)) := by
  induction l generalizing acc with
  | nil => simp
  | cons x xs ih =>
    simp only [List.foldl_cons, List.map_cons, List.filter_cons]
    by_cases h : isNull (f x)
    · simp [h, ih]
    · simp [h, ih]

/-- The keep-loop of the filter equals `List.filter` of its condition. -/
theorem foldl_keep_eq (p : Value → Bool) (l acc : List Value) :
    l.foldl (fun a item => if p item then a ++ [item] else a) acc
      = acc ++ l.filter p := by
  induction l generalizing acc with
  | nil => simp
  | cons x xs ih =>
    simp only [List.foldl_cons, List.filter_cons]
    by_cases h : p x
    · simp [h, ih]
    · simp [h, ih]

/-- C1 counterexample: the claim asserts that a located explicit `Null` is
a different evaluation result from a missing key; in the code both return
the same Python `None`, witnessed on the mapping `{"a": null}` with present
key `"a"` and absent key `"b"`. -/
theorem c1_counterexample :
    query_data (Value.dict [("a", Value.null)]) [Comp.fld "a"]
      = query_data (Value.dict [("a", Value.null)]) [Comp.fld "b"] := rfl

/-- C1, amended: path evaluation has no first-class absent result distinct
from `Null`; for every mapping that binds `k` to `Null` and has no binding
for `k'`, evaluating `[Field k]` and `[Field k']` both return the same
`None` value. -/
theorem c1_null_and_missing_conflated (m : List (String × Value)) (k k' : String)
    (h : lookupKey m k = some Value.null) (h' : lookupKey m k' = none) :
    query_data (Value.dict m) [Comp.fld k] = Value.null
      ∧ query_data (Value.dict m) [Comp.fld k'] = Value.null := by
  constructor
  · by_cases hk : Comp.fld k = Comp.fld "*"
    · simp [query_data, hk]
    · simp [query_data, hk, h]
  · by_cases hk : Comp.fld k' = Comp.fld "*"
    · simp [query_data, hk]
    · simp [query_data, hk, h']

/-- C1 witness: the amended theorem applied to the mapping `{"a": null}`. -/
theorem c1_witness :
    query_data (Value.dict [("a", Value.null)]) [Comp.fld "a"] = Value.null
      ∧ query_data (Value.dict [("a", Value.null)]) [Comp.fld "b"] = Value.null :=
  c1_null_and_missing_conflated [("a", Value.null)] "a" "b" rfl rfl

/-- C2: wildcard distributivity. Over a Sequence, `[Wildcard] ++ rest`
evaluates to the order-preserving list of the non-absent results of `rest`
on each element (`None` when that list is empty); over every non-Sequence
kind the wildcard yields `None`. -/
theorem c2_wildcard_distributivity :
    (∀ (items : List Value) (rest : List Comp),
        query_data (Value.list items) (Comp.fld "*" :: rest)
          = match (items.map (fun a => query_data a rest)).filter (fun r => !(isNull r)) with
            | [] => Value.null
            | results => Value.list results)
      ∧ (∀ rest : List Comp, query_data Value.null (Comp.fld "*" :: rest) = Value.null)
      ∧ (∀ (b : Bool) (rest : List Comp),
          query_data (Value.bool b) (Comp.fld "*" :: rest) = Value.null)
      ∧ (∀ (n : Int) (rest : List Comp),
          query_data (Value.int n) (Comp.fld "*" :: rest) = Value.null)
      ∧ (∀ (q : Rat) (rest : List Comp),
          query_data (Value.float q) (Comp.fld "*" :: rest) = Value.null)
      ∧ (∀ (s : String) (rest : List Comp),
          query_data (Value.str s) (Comp.fld "*" :: rest) = Value.null)
      ∧ (∀ (es : List (String × Value)) (rest : List Comp),
          query_data (Value.dict es) (Comp.fld "*" :: rest) = Value.null) := by
  have hmatch : ∀ L : List Value,
      (match L with | [] => Value.null | _ => Value.list L)
        = (match L with | [] => Value.null | results => Value.list results) := by
    intro L
    cases L <;> rfl
  refine ⟨?_, ?_, ?_, ?_, ?_, ?_, ?_⟩ <;> intros <;> simp only [query_data, if_pos rfl] <;>
    try simp
  rw [foldl_collect_eq]
  simp only [List.nil_append]
  exact hmatch _

/-- Python `==` on values of different kinds is false when the two kinds
are not both numeric. -/
theorem pyEq_cross (v fv : Value) (hk : kindIdx v ≠ kindIdx fv)
    (hn : ¬(isNumericKind v = true ∧ isNumericKind fv = true)) :
    pyEq v fv = false := by
  cases v <;> cases fv <;> simp_all [pyEq, numQ?, kindIdx, isNumericKind]

/-- Python `<` on values of different kinds raises (`none`) when the two
kinds are not both numeric. -/
theorem pyLt_cross (v fv : Value) (hk : kindIdx v ≠ kindIdx fv)
    (hn : ¬(isNumericKind v = true ∧ isNumericKind fv = true)) :
    pyLt v fv = none := by
  cases v <;> cases fv <;> simp_all [pyLt, numQ?, kindIdx, isNumericKind]

/-- Python `<=` on values of different kinds raises (`none`) when the two
kinds are not both numeric. -/
theorem pyLe_cross (v fv : Value) (hk : kindIdx v ≠ kindIdx fv)
    (hn : ¬(isNumericKind v = true ∧ isNumericKind fv = true)) :
    pyLe v fv = none := by
  cases v <;> cases fv <;> simp_all [pyLe, numQ?, kindIdx, isNumericKind]

/-- C3 counterexample: the claim asserts every comparison operator yields
`false` on cross-kind pairs (other than int/float); in the code `!=`
between the Number `1` and the String `"a"` yields `true` (they are indeed
unequal), and `==` between the Number `1` and the Bool `true` yields `true`
(Python's bool is an int subclass, `1 == True`). -/
theorem c3_counterexample :
    check_condition (fun _ _ => false) (Value.int 1) "!=" (Value.str "a") = true
      ∧ check_condition (fun _ _ => false) (Value.int 1) "==" (Value.bool true) = true :=
  ⟨rfl, rfl⟩

/-- C3, amended: on a cross-kind pair whose kinds are not both numeric
(Bool counts as numeric: Python compares it as 0/1 with int and float),
the four ordering operators and `==` evaluate to `false` and `!=`
evaluates to `true`; nothing raises (the embedding is total, the
`TypeError` of an ordering is swallowed into `false`). -/
theorem c3_cross_kind_comparisons (rm : String → String → Bool) (v fv : Value)
    (hk : kindIdx v ≠ kindIdx fv)
    (hn : ¬(isNumericKind v = true ∧ isNumericKind fv = true)) :
    check_condition rm v ">" fv = false
      ∧ check_condition rm v "<" fv = false
      ∧ check_condition rm v ">=" fv = false
      ∧ check_condition rm v "<=" fv = false
      ∧ check_condition rm v "==" fv = false
      ∧ check_condition rm v "!=" fv = true := by
  have hk' : kindIdx fv ≠ kindIdx v := fun h => hk h.symm
  have hn' : ¬(isNumericKind fv = true ∧ isNumericKind v = true) := fun h => hn ⟨h.2, h.1⟩
  refine ⟨?_, ?_, ?_, ?_, ?_, ?_⟩ <;>
    simp [check_condition, pyEq_cross v fv hk hn, pyLt_cross v fv hk hn,
      pyLe_cross v fv hk hn, pyLt_cross fv v hk' hn', pyLe_cross fv v hk' hn']

/-- C3 witness: the amended theorem applied to the String `"a"` against
the Number `1`. -/
theorem c3_witness :
    check_condition (fun _ _ => false) (Value.str "a") ">" (Value.int 1) = false
      ∧ check_condition (fun _ _ => false) (Value.str "a") "<" (Value.int 1) = false
      ∧ check_condition (fun _ _ => false) (Value.str "a") ">=" (Value.int 1) = false
      ∧ check_condition (fun _ _ => false) (Value.str "a") "<=" (Value.int 1) = false
      ∧ check_condition (fun _ _ => false) (Value.str "a") "==" (Value.int 1) = false
      ∧ check_condition (fun _ _ => false) (Value.str "a") "!=" (Value.int 1) = true :=
  c3_cross_kind_comparisons (fun _ _ => false) (Value.str "a") (Value.int 1)
    (by decide) (by decide)

/-- C4 counterexample: the claim asserts that evaluating the parsed path of
the expression `*` against a mapping containing the key `"*"` returns the
stored value; in the code the bare `*` parses to the same string component
as a bracketed `[*]`, the evaluator tests for the wildcard before dict
access, a dict is not a list, and the result is `None`, not the stored
value `1`. -/
theorem c4_counterexample :
    parse_query_path "*" = [Comp.fld "*"]
      ∧ query_data (Value.dict [("*", Value.int 1)]) (parse_query_path "*") = Value.null
      ∧ Value.null ≠ Value.int 1 :=
  ⟨rfl, rfl, by simp⟩

/-- C4, amended: both a bracket group with content `*` and a bare dotted
`*` produce the same string component `*`, which evaluation always treats
as the wildcard; against a Mapping the wildcard yields `None` even when the
Mapping contains the literal key `"*"`. -/
theorem c4_star_always_wildcard :
    parse_query_path "*" = [Comp.fld "*"]
      ∧ parse_query_path "[*]" = [Comp.fld "*"]
      ∧ (∀ (es : List (String × Value)) (rest : List Comp),
          query_data (Value.dict es) (Comp.fld "*" :: rest) = Value.null) := by
  refine ⟨rfl, rfl, ?_⟩
  intro es rest
  simp [query_data]

/-- C5 counterexample: the claim asserts a negative index is treated as
absent; the code uses Python indexing, where index `-1` selects the last
element of `[10, 20, 30]`. -/
theorem c5_counterexample :
    query_data (Value.list [Value.int 10, Value.int 20, Value.int 30]) [Comp.idx (-1)]
      = Value.int 30
      ∧ Value.int 30 ≠ Value.null :=
  ⟨rfl, by simp⟩

/-- C5, amended: sequence indexing is bounds-checked with Python
semantics: an index at or past the length is absent, an index below
`-length` is absent, and a negative index within range selects from the
end (`length + i`). -/
theorem c5_index_bounds (items : List Value) (i : Int) (rest : List Comp) :
    ((items.length : Int) ≤ i →
        query_data (Value.list items) (Comp.idx i :: rest) = Value.null)
      ∧ (i < -(items.length : Int) →
        query_data (Value.list items) (Comp.idx i :: rest) = Value.null)
      ∧ (-(items.length : Int) ≤ i → i < 0 →
        query_data (Value.list items) (Comp.idx i :: rest)
          = query_data (items.getD ((items.length : Int) + i).toNat Value.null) rest) := by
  have hne : (Comp.idx i = Comp.fld "*") = False := by simp
  refine ⟨?_, ?_, ?_⟩
  · intro h
    have h1 : ¬ i < 0 := by omega
    simp only [query_data, hne, if_false, Int.ofNat_eq_coe, h1]
    rw [if_neg (by omega)]
  · intro h
    have h1 : i < 0 := by omega
    simp only [query_data, hne, if_false, Int.ofNat_eq_coe, if_pos h1]
    rw [if_neg (by omega)]
  · intro h1 h2
    simp only [query_data, hne, if_false, Int.ofNat_eq_coe, if_pos h2]
    rw [if_pos (by omega)]

/-- C5 witness: the amended index theorem applied to the one-element list
`[10]` at the indexes `1`, `-2` and `-1`. -/
theorem c5_witness :
    query_data (Value.list [Value.int 10]) [Comp.idx 1] = Value.null
      ∧ query_data (Value.list [Value.int 10]) [Comp.idx (-2)] = Value.null
      ∧ query_data (Value.list [Value.int 10]) [Comp.idx (-1)]
          = query_data (Value.int 10) [] :=
  ⟨(c5_index_bounds [Value.int 10] 1 []).1 (by decide),
   (c5_index_bounds [Value.int 10] (-2) []).2.1 (by decide),
   (c5_index_bounds [Value.int 10] (-1) []).2.2 (by decide) (by decide)⟩

/-- C6 counterexample: the claim asserts every token a float parse accepts
but an int parse rejects (such as `1e5`) coerces to a Number; in the code
the numeric branch is gated on the presence of a dot, `1e5` has none, the
int parse fails, and both coercions return the raw String. -/
theorem c6_counterexample :
    parse_filter_value "1e5" = Value.str "1e5"
      ∧ YAMLParser.parse_value "1e5" = Value.str "1e5" :=
  ⟨rfl, rfl⟩

/-- C6, amended: both scalar coercions attempt exactly one numeric parse,
chosen by whether the (stripped) token contains a dot: without a dot only
an integer parse is attempted, so the result is never a float; with a dot
only a float parse is attempted, so the result is never an int. A
float-only token without a dot, such as `1e5`, therefore stays a String. -/
theorem c6_dot_gated_numeric_parse (s : String) :
    ((strTrim s).data.contains '.' = false →
        (∀ q : Rat, YAMLParser.parse_value s ≠ Value.float q)
          ∧ (∀ q : Rat, parse_filter_value s ≠ Value.float q))
      ∧ ((strTrim s).data.contains '.' = true →
        (∀ n : Int, YAMLParser.parse_value s ≠ Value.int n)
          ∧ (∀ n : Int, parse_filter_value s ≠ Value.int n)) := by
  constructor
  · intro hdot
    constructor
    · intro q
      simp only [YAMLParser.parse_value, hdot]
      split_ifs <;> rcases pyInt? (strTrim s) with _ | m <;> simp_all
    · intro q
      simp only [parse_filter_value, hdot]
      split_ifs <;> rcases pyInt? (strTrim s) with _ | m <;> simp_all
  · intro hdot
    constructor
    · intro n
      simp only [YAMLParser.parse_value, hdot]
      split_ifs <;> rcases pyFloat? (strTrim s) with _ | q <;> simp_all
    · intro n
      simp only [parse_filter_value, hdot]
      split_ifs <;> rcases pyFloat? (strTrim s) with _ | q <;> simp_all

/-- C6 witness: the amended theorem applied to the dot-free token `1e5`
and the dotted token `1.5`. -/
theorem c6_witness :
    YAMLParser.parse_value "1e5" ≠ Value.float 0
      ∧ parse_filter_value "1e5" ≠ Value.float 0
      ∧ YAMLParser.parse_value "1.5" ≠ Value.int 1
      ∧ parse_filter_value "1.5" ≠ Value.int 1 :=
  ⟨((c6_dot_gated_numeric_parse "1e5").1 (by decide)).1 0,
   ((c6_dot_gated_numeric_parse "1e5").1 (by decide)).2 0,
   ((c6_dot_gated_numeric_parse "1.5").2 (by decide)).1 1,
   ((c6_dot_gated_numeric_parse "1.5").2 (by decide)).2 1⟩

/-- List part of the numeric collection as a flattened map. -/
theorem collectList_eq_flatten (l : List Value) :
    collectList l = (l.map collect_numbers).flatten := by
  induction l with
  | nil => rfl
  | cons x xs ih => simp [collectList, ih]

/-- Dict part of the numeric collection as a flattened map over values. -/
theorem collectDict_eq_flatten (es : List (String × Value)) :
    collectDict es = (es.map (fun kv => collect_numbers kv.2)).flatten := by
  induction es with
  | nil => rfl
  | cons kv rest ih =>
    obtain ⟨k, v⟩ := kv
    simp [collectDict, ih]

/-- C7 counterexample: the claim asserts only Number leaves are collected;
the code tests `isinstance(obj, (int, float))`, which is true for `bool`
as well, so the boolean leaf `True` is collected (and counted as 1 by the
statistics). -/
theorem c7_counterexample :
    collect_numbers (Value.list [Value.bool true, Value.str "x"]) = [Value.bool true] := rfl

/-- C7, amended: `collect_numbers` returns exactly the Number and Bool
leaves (Python's bool is a numeric subtype) in depth-first traversal
order; null and string leaves contribute nothing, sequences and mappings
flatten their members' collections in stored order. The statistics over
the collected leaves report count, sum (10.5 on the claim's example),
float average (2.625), min and max, and an empty collection reports the
"no numeric values" error dict rather than crashing. -/
theorem c7_collect_numbers_stats :
    collect_numbers (Value.list [Value.int 1, Value.float 2.5,
        Value.dict [("a", Value.int 3)], Value.list [Value.int 4]])
      = [Value.int 1, Value.float 2.5, Value.int 3, Value.int 4]
      ∧ calculate_stats (Value.list [Value.int 1, Value.float 2.5,
          Value.dict [("a", Value.int 3)], Value.list [Value.int 4]])
        = Value.dict [("count", Value.int 4), ("sum", Value.float 10.5),
            ("avg", Value.float 2.625), ("min", Value.int 1), ("max", Value.int 4)]
      ∧ collect_numbers (Value.list []) = []
      ∧ calculate_stats (Value.list [])
          = Value.dict [("error", Value.str "No numeric values found")]
      ∧ (∀ n : Int, collect_numbers (Value.int n) = [Value.int n])
      ∧ (∀ q : Rat, collect_numbers (Value.float q) = [Value.float q])
      ∧ (∀ b : Bool, collect_numbers (Value.bool b) = [Value.bool b])
      ∧ (∀ s : String, collect_numbers (Value.str s) = [])
      ∧ collect_numbers Value.null = []
      ∧ (∀ l : List Value,
          collect_numbers (Value.list l) = (l.map collect_numbers).flatten)
      ∧ (∀ es : List (String × Value),
          collect_numbers (Value.dict es)
            = (es.map (fun kv => collect_numbers kv.2)).flatten) := by
  refine ⟨?_, ?_, rfl, rfl, fun n => rfl, fun q => rfl, fun b => rfl, fun s => rfl, rfl,
      fun l => collectList_eq_flatten l, fun es => collectDict_eq_flatten es⟩
  · show collectList _ = _
    norm_num [collectList, collectDict, collect_numbers]
  · show calculate_stats _ = _
    simp only [calculate_stats, collect_numbers, collectList, collectDict]
    norm_num [pyAdd, pyMin, pyMax, numQ?, pyAdd.intOf]

/-- C8: filter idempotence. For every value and every filter expression,
applying `filter_data` twice yields the same result as applying it once:
a filtered list keeps exactly the elements satisfying the parsed
condition, and re-filtering keeps them all; a passing dict passes again;
every other outcome is `None` or a pass-through, both fixed points. -/
theorem c8_filter_idempotent (rm : String → String → Bool) (v : Value) (e : String) :
    filter_data rm (filter_data rm v e) e = filter_data rm v e := by
  by_cases he : e = ""
  · simp [filter_data, he]
  · rcases hpe : parseFilterExpr e with _ | ⟨key, operator, raw⟩
    · simp [filter_data, he, hpe]
    · cases v with
      | list items =>
        simp only [filter_data, he, hpe, if_neg he]
        rw [foldl_keep_eq, List.nil_append]
        simp only [if_false]
        rw [foldl_keep_eq, List.nil_append, List.filter_filter]
        simp
      | dict es =>
        rcases hlk : lookupKey es key with _ | w
        · simp [filter_data, he, hpe, hlk]
        · by_cases hc : check_condition rm w operator (parse_filter_value raw)
          · simp [filter_data, he, hpe, hlk, hc]
          · simp [filter_data, he, hpe, hlk, hc]
      | null => simp [filter_data, he, hpe]
      | bool b => simp [filter_data, he, hpe]
      | int n => simp [filter_data, he, hpe]
      | float q => simp [filter_data, he, hpe]
      | str s => simp [filter_data, he, hpe]

/-- C9: in the minimal YAML parser, once a `- ` sequence item has been
seen in a block (the `in_list` flag is set), the block's result is the
Sequence of its items no matter what else the block contains — stated for
every continuation state of the parsing loop — co-occurring key-value
lines at the same indentation are parsed into the discarded mapping and do
not change the result, mixed blocks parse without crashing (the embedding
is total), and a block producing no entries yields `Null`, not an empty
Mapping. -/
theorem c9_yaml_list_wins :
    (∀ (fuel : Nat) (lines : List String) (startIndent : Nat)
        (res : List (String × Value)) (cl : List Value) (ck : Option String) (consumed : Nat),
        ∃ (l : List Value) (n : Nat),
          YAMLParser.parse_lines fuel lines startIndent res cl ck true consumed
            = (Value.list l, n))
      ∧ YAMLParser.parse "- 1\nk: v\n- 2" = Value.list [Value.int 1, Value.int 2]
      ∧ YAMLParser.parse "" = Value.null := by
  refine ⟨?_, rfl, rfl⟩
  intro fuel
  induction fuel with
  | zero =>
    intro lines si res cl ck consumed
    exact ⟨cl, consumed, rfl⟩
  | succ fuel ih =>
    intro lines si res cl ck consumed
    cases lines with
    | nil => exact ⟨cl, consumed, rfl⟩
    | cons line rest =>
      simp only [YAMLParser.parse_lines]
      repeat' split
      all_goals first
        | exact ⟨cl, consumed, rfl⟩
        | apply ih

/-- C10: when the document root is itself a String leaf matched by the
pattern, search returns exactly one result pair whose materialized path is
the empty string; top-level sequence elements get paths of the form `[i]`
with no leading separator. -/
theorem c10_search_root_paths :
    (∀ (rm : String → String → Bool) (pattern s : String),
        rm pattern s = true → search_data rm (Value.str s) pattern = [("", s)])
      ∧ search_data (fun _ _ => true) (Value.list [Value.str "a", Value.str "b"]) "p"
          = [("[0]", "a"), ("[1]", "b")] := by
  constructor
  · intro rm pattern s h
    simp [search_data, search_recursive, h]
  · rfl

/-- C10 witness: the root-string part applied to a concrete matcher that
compares pattern and subject for equality. -/
theorem c10_witness :
    search_data (fun p s => p == s) (Value.str "q") "q" = [("", "q")] :=
  c10_search_root_paths.1 (fun p s => p == s) "q" "q" rfl

end JSONQuery
